import Mathlib

/-!
Verification of the slack-emoji-studio rendering core (src/chatgpt/app.js).

Strings are modelled as `List Char` (Unicode scalar values); JS numbers are
modelled exactly: integers as `ℤ`, floating-point quantities as `ℚ` (the
values the program manipulates are small decimals, exactly representable).
`S` converts a Lean string literal to the `List Char` model.
-/

namespace App

def S (s : String) : List Char := s.data

/-- JS whitespace (the `\s` regex class and `String.prototype.trim`):
space, tab, LF, CR, VT, FF, NBSP, BOM.  (Rarer Unicode space separators
are omitted from the model; no claim depends on them.) -/
def isJsWhitespace (c : Char) : Bool :=
  c = ' ' || c = '\t' || c = '\n' || c = '\r' ||
  c = '\x0B' || c = '\x0C' || c = '\u00A0' || c = '\uFEFF'

def isAsciiDigit (c : Char) : Bool := '0' ≤ c && c ≤ '9'

def isAsciiLower (c : Char) : Bool := 'a' ≤ c && c ≤ 'z'

def isAsciiUpper (c : Char) : Bool := 'A' ≤ c && c ≤ 'Z'

/-- `[0-9a-f]` with the `i` flag. -/
def isHexDigit (c : Char) : Bool :=
  isAsciiDigit c || ('a' ≤ c && c ≤ 'f') || ('A' ≤ c && c ≤ 'F')

def hexDigitVal (c : Char) : ℕ :=
  if isAsciiDigit c then c.toNat - '0'.toNat
  else if 'a' ≤ c && c ≤ 'f' then c.toNat - 'a'.toNat + 10
  else if 'A' ≤ c && c ≤ 'F' then c.toNat - 'A'.toNat + 10
  else 0

/-- `String.prototype.trim`: drop JS whitespace from both ends. -/
def jsTrim (s : List Char) : List Char :=
  ((s.dropWhile isJsWhitespace).reverse.dropWhile isJsWhitespace).reverse

/-- Longest leading run of decimal digits, and the rest. -/
def leadingDigits : List Char → List Char × List Char
  | [] => ([], [])
  | c :: rest =>
    if isAsciiDigit c then
      let (ds, r) := leadingDigits rest
      (c :: ds, r)
    else ([], c :: rest)

def digitsVal (ds : List Char) : ℕ :=
  ds.foldl (fun acc c => 10 * acc + (c.toNat - '0'.toNat)) 0

/-- Optional leading sign: returns the sign (as ±1) and the rest. -/
def readSign : List Char → ℤ × List Char
  | '+' :: rest => (1, rest)
  | '-' :: rest => (-1, rest)
  | s => (1, s)

/-- `Number.parseInt(String(v), 10)`: skip leading whitespace, optional
sign, then the longest run of decimal digits; `none` models `NaN`. -/
def parseIntJS (s : List Char) : Option ℤ :=
  let s1 := s.dropWhile isJsWhitespace
  let (sign, s2) := readSign s1
  let (ds, _) := leadingDigits s2
  if ds = [] then none else some (sign * (digitsVal ds : ℤ))

/-- Result of `Number.parseFloat`: `NaN`, `±Infinity`, or an exact value. -/
inductive JsFloat where
  | nan : JsFloat
  | posInf : JsFloat
  | negInf : JsFloat
  | val (q : ℚ) : JsFloat
deriving DecidableEq, Repr

/-- The discrete outcome of the `parseFloat` grammar: `NaN`, an infinity,
or sign / integer digits / fraction digits / exponent. -/
inductive FloatParse where
  | nan : FloatParse
  | posInf : FloatParse
  | negInf : FloatParse
  | parts (sign : ℤ) (ip fp : List Char) (e : ℤ) : FloatParse
deriving DecidableEq, Repr

/-- The syntactic phase of `Number.parseFloat(String(v))`: skip leading
whitespace, optional sign, then `Infinity`, or digits, optional fraction,
optional well-formed exponent (a trailing `e` without digits is ignored). -/
def parseFloatParts (s : List Char) : FloatParse :=
  let s1 := s.dropWhile isJsWhitespace
  let (sign, s2) := readSign s1
  if (S ("Infinity")).isPrefixOf s2 then
    if sign = 1 then .posInf else .negInf
  else
    let (ip, s3) := leadingDigits s2
    let (fp, s4) :=
      match s3 with
      | '.' :: r => leadingDigits r
      | _ => ([], s3)
    if ip = [] ∧ fp = [] then .nan
    else
      let e : ℤ :=
        match s4 with
        | c :: r =>
          if c = 'e' ∨ c = 'E' then
            let (esign, r2) := readSign r
            let (ed, _) := leadingDigits r2
            if ed = [] then 0 else esign * (digitsVal ed : ℤ)
          else 0
        | [] => 0
      .parts sign ip fp e

/-- The numeric value `sign * (ip + 0.fp) * 10^e` of a parse outcome. -/
def floatPartsVal : FloatParse → JsFloat
  | .nan => .nan
  | .posInf => .posInf
  | .negInf => .negInf
  | .parts sign ip fp e =>
    .val ((sign : ℚ) * ((digitsVal ip : ℚ) + (digitsVal fp : ℚ) / (10 : ℚ) ^ fp.length)
      * (10 : ℚ) ^ e)

/-- `Number.parseFloat(String(v))`. -/
def parseFloatJS (s : List Char) : JsFloat :=
  floatPartsVal (parseFloatParts s)

/-- `clampInt(v, min, max)`: parse as base-10 integer, `min` on `NaN`,
else `Math.max(min, Math.min(max, n))`. -/
def clampInt (v : List Char) (lo hi : ℤ) : ℤ :=
  match parseIntJS v with
  | none => lo
  | some n => max lo (min hi n)

/-- `clampFloat(v, min, max)`: parse as float, `min` on `NaN`, else
`Math.max(min, Math.min(max, n))` (with the IEEE infinities resolved:
`+∞` clamps to `max lo hi`, `-∞` to `lo`). -/
def clampFloat (v : List Char) (lo hi : ℚ) : ℚ :=
  match parseFloatJS v with
  | .nan => lo
  | .posInf => max lo hi
  | .negInf => lo
  | .val q => max lo (min hi q)

structure Rgb where
  r : ℕ
  g : ℕ
  b : ℕ
deriving DecidableEq, Repr

/-- `hexToRgb`: trim, match `^#?([0-9a-f]{6})$/i`, parse the six hex
digits as one number `n`, return `{(n>>16)&255, (n>>8)&255, n&255}`;
`none` on no match. -/
def hexToRgb (hex : List Char) : Option Rgb :=
  let t := jsTrim hex
  let body := match t with
    | '#' :: r => r
    | _ => t
  if body.length = 6 ∧ body.all isHexDigit then
    let n : ℕ := body.foldl (fun acc c => 16 * acc + hexDigitVal c) 0
    some ⟨(n >>> 16) &&& 255, (n >>> 8) &&& 255, n &&& 255⟩
  else none

/-- `normalizeNewlines`: replace `/\r\n?/g` with `"\n"`. -/
def normalizeNewlines : List Char → List Char
  | [] => []
  | '\r' :: '\n' :: rest => '\n' :: normalizeNewlines rest
  | '\r' :: rest => '\n' :: normalizeNewlines rest
  | c :: rest => c :: normalizeNewlines rest

/-- `s.split("\n")` (always at least one piece, like the JS original). -/
def splitNl : List Char → List (List Char)
  | [] => [[]]
  | '\n' :: rest => [] :: splitNl rest
  | c :: rest =>
    match splitNl rest with
    | [] => [[c]]
    | l :: ls => (c :: l) :: ls

/-- `normalizeHex`: trim, match `^#([0-9a-f]{6})$/i` (the `#` is
mandatory), return `#` + the captured digits with their case preserved,
else `null`. -/
def normalizeHex (v : List Char) : Option (List Char) :=
  match jsTrim v with
  | '#' :: body =>
    if body.length = 6 ∧ body.all isHexDigit then some ('#' :: body) else none
  | _ => none

def EXPORT_SIZE : ℕ := 128

/-- The `State` typedef: the mutable style/content parameters.  `align` is
a plain string in the model because the source never validates it at
runtime (the enum lives only in a JSDoc type annotation). -/
structure State where
  text : List Char
  fontFamily : List Char
  fontWeight : List Char
  fontSize : ℤ
  lineHeight : ℚ
  textColor : List Char
  bgColor : List Char
  bgTransparent : Bool
  bgAlpha : ℚ
  offsetX : ℤ
  offsetY : ℤ
  align : List Char
  padding : ℤ
deriving DecidableEq, Repr

def DEFAULT_STATE : State where
  text := S ("早安！\nHello :)")
  fontFamily := S ("Noto Sans TC")
  fontWeight := S ("400")
  fontSize := 56
  lineHeight := 1.15
  textColor := S ("#111827")
  bgColor := S ("#ffffff")
  bgTransparent := true
  bgAlpha := 1
  offsetX := 0
  offsetY := 0
  align := S ("center")
  padding := 0

/-- The object produced by `JSON.parse` of the persisted preferences:
each property may be absent (`none`).  Numeric properties are carried as
the string `String(v)` yields for them, since that is the only way
`loadState` consumes them (through `clampInt`/`clampFloat`);
`bgTransparent` is carried as the JSON boolean. -/
structure Persisted where
  text : Option (List Char) := none
  fontFamily : Option (List Char) := none
  fontWeight : Option (List Char) := none
  fontSize : Option (List Char) := none
  lineHeight : Option (List Char) := none
  textColor : Option (List Char) := none
  bgColor : Option (List Char) := none
  bgTransparent : Option Bool := none
  bgAlpha : Option (List Char) := none
  offsetX : Option (List Char) := none
  offsetY : Option (List Char) := none
  align : Option (List Char) := none
  padding : Option (List Char) := none
deriving DecidableEq, Repr

/-- `loadState` on a readable store: `{...DEFAULT_STATE, ...parsed}` then
the explicitly sanitized numeric/boolean overrides.  The argument is
`none` when the key is missing or `JSON.parse`/storage access throws, in
which case a copy of the defaults is returned.  Absent numeric fields fall
back to the default value before clamping (`parsed.x ?? default`); the
string-literal defaults below are `String(·)` of the numeric defaults.
Note the spread leaves `text`, `fontFamily`, `fontWeight`, `textColor`,
`bgColor` and `align` exactly as persisted, with no sanitization. -/
def loadState (raw : Option Persisted) : State :=
  match raw with
  | none => DEFAULT_STATE
  | some parsed =>
    { text := parsed.text.getD DEFAULT_STATE.text
      fontFamily := parsed.fontFamily.getD DEFAULT_STATE.fontFamily
      fontWeight := parsed.fontWeight.getD DEFAULT_STATE.fontWeight
      textColor := parsed.textColor.getD DEFAULT_STATE.textColor
      bgColor := parsed.bgColor.getD DEFAULT_STATE.bgColor
      align := parsed.align.getD DEFAULT_STATE.align
      fontSize := clampInt (parsed.fontSize.getD (S ("56"))) 8 128
      lineHeight := clampFloat (parsed.lineHeight.getD (S ("1.15"))) 0.8 1.8
      bgAlpha := clampFloat (parsed.bgAlpha.getD (S ("1"))) 0 1
      offsetX := clampInt (parsed.offsetX.getD (S ("0"))) (-64) 64
      offsetY := clampInt (parsed.offsetY.getD (S ("0"))) (-64) 64
      padding := clampInt (parsed.padding.getD (S ("0"))) 0 24
      bgTransparent := parsed.bgTransparent.getD DEFAULT_STATE.bgTransparent }

/-- The `.value`s of the form controls at the moment an input event runs
`readControlsIntoState` (checkbox `checked` as Bool). -/
structure Controls where
  textInput : List Char
  fontSelect : List Char
  weightSelect : List Char
  sizeRange : List Char
  lineRange : List Char
  textColor : List Char
  bgColor : List Char
  bgTransparent : Bool
  bgAlphaRange : List Char
  offXRange : List Char
  offYRange : List Char
  alignSelect : List Char
  padRange : List Char
deriving DecidableEq, Repr

/-- `readControlsIntoState`: overwrites every field of the state from the
controls (the prior state is mutated in place; every field is assigned,
so the result does not depend on it).  This is the `set` operation of the
ParameterStore. -/
def readControlsIntoState (_prior : State) (c : Controls) : State where
  text := normalizeNewlines c.textInput
  fontFamily := c.fontSelect
  fontWeight := c.weightSelect
  fontSize := clampInt c.sizeRange 8 128
  lineHeight := clampFloat c.lineRange 0.8 1.8
  textColor := (normalizeHex c.textColor).getD DEFAULT_STATE.textColor
  bgColor := (normalizeHex c.bgColor).getD DEFAULT_STATE.bgColor
  bgTransparent := c.bgTransparent
  bgAlpha := (clampInt c.bgAlphaRange 0 100 : ℚ) / 100
  offsetX := clampInt c.offXRange (-64) 64
  offsetY := clampInt c.offYRange (-64) 64
  align := c.alignSelect
  padding := clampInt c.padRange 0 24

/-- `setColorFromHexInput`: the value written back into the hex text field
and into the color input.  The hex field gets the lowercased form, the
color input the case-preserved form. -/
def setColorFromHexInput (hexValue fallback : List Char) : List Char × List Char :=
  let hex := (normalizeHex hexValue).getD fallback
  (hex.map Char.toLower, hex)

/-- Replace each maximal run of `\s` with a single `-` (the
`replace(/\s+/g, "-")` step); the flag records whether we are inside a
whitespace run. -/
def collapseWsAux : Bool → List Char → List Char
  | _, [] => []
  | inRun, c :: rest =>
    if isJsWhitespace c then
      if inRun then collapseWsAux true rest
      else '-' :: collapseWsAux true rest
    else c :: collapseWsAux false rest

def collapseWs (s : List Char) : List Char := collapseWsAux false s

/-- The character class kept by `replace(/[^a-z0-9_\- -￿]/gi, "")`:
ASCII letters (both cases, via the `i` flag), digits, `_`, `-`, and every
character from U+00A0 up.  (In JS the range ` -￿` is over UTF-16
code units, so astral characters are kept through their surrogates; at the
scalar level this is exactly `c.val ≥ 0xA0`.) -/
def keepFileChar (c : Char) : Bool :=
  isAsciiLower c || isAsciiUpper c || isAsciiDigit c ||
  c = '_' || c = '-' || decide (0xA0 ≤ c.val)

/-- Replace each maximal run of `-` with a single `-`
(the hyphen-run collapsing replace step). -/
def collapseHyAux : Bool → List Char → List Char
  | _, [] => []
  | inRun, c :: rest =>
    if c = '-' then
      if inRun then collapseHyAux true rest
      else '-' :: collapseHyAux true rest
    else c :: collapseHyAux false rest

def collapseHy (s : List Char) : List Char := collapseHyAux false s

/-- `replace(/^-|-$/g, "")`: remove one `-` at the very start and one at
the very end. -/
def dropEdgeHyphens (s : List Char) : List Char :=
  let s1 := match s with
    | '-' :: r => r
    | other => other
  (match s1.reverse with
    | '-' :: r => r
    | other => other).reverse

/-- `safeFileNameFromText`: first line of the newline-normalized text,
trimmed; default name when empty; else collapse whitespace to `-`, keep
only `keepFileChar` characters, collapse and edge-trim hyphens, truncate
to 32 characters, default base when empty, append `.png`. -/
def safeFileNameFromText (text : List Char) : List Char :=
  let first := jsTrim ((splitNl (normalizeNewlines text)).headD [])
  if first = [] then S ("slack-emoji.png")
  else
    let base0 := (collapseWs first).filter keepFileChar
    let base1 := (dropEdgeHyphens (collapseHy base0)).take 32
    let base := if base1 = [] then S ("slack-emoji") else base1
    base ++ S (".png")

/-- Modelled from the claim's words (C3), for comparison with
`safeFileNameFromText`: the file name is "derived from the first line of
text by stripping non-alphanumeric characters other than `-` and `_`,
collapsing whitespace to `-`, and truncating to 32 characters, with
default `slack-emoji.png` when the result is empty".  Whitespace is
collapsed before stripping (the only reading under which the two steps
compose), and "alphanumeric" is ASCII letters and digits. -/
def claimFileNameFromText (text : List Char) : List Char :=
  let first := (splitNl (normalizeNewlines text)).headD []
  let keep : Char → Bool := fun c =>
    isAsciiLower c || isAsciiUpper c || isAsciiDigit c || c = '_' || c = '-'
  let base := ((collapseWs first).filter keep).take 32
  if base = [] then S ("slack-emoji.png") else base ++ S (".png")

/-- Modelled from the amended claim (C3): like `claimFileNameFromText`
but the first line is trimmed, characters at U+00A0 and above are also
kept, hyphen runs are collapsed and a single leading/trailing hyphen is
removed before truncation, and an empty base falls back to `slack-emoji`
before `.png` is appended. -/
def amendedFileNameFromText (text : List Char) : List Char :=
  let first := jsTrim ((splitNl (normalizeNewlines text)).headD [])
  if first = [] then S ("slack-emoji.png")
  else
    let keep : Char → Bool := fun c =>
      isAsciiLower c || isAsciiUpper c || isAsciiDigit c ||
      c = '_' || c = '-' || decide (0xA0 ≤ c.val)
    let base0 := (collapseWs first).filter keep
    let base1 := (dropEdgeHyphens (collapseHy base0)).take 32
    let base := if base1 = [] then S ("slack-emoji") else base1
    base ++ S (".png")

/-- Layout quantities of `renderExportCanvas`. -/
def lineHeightPx (s : State) : ℚ := (s.fontSize : ℚ) * s.lineHeight

def stateLines (s : State) : List (List Char) := splitNl (normalizeNewlines s.text)

def totalHeight (s : State) : ℚ := lineHeightPx s * (stateLines s).length

/-- `startY`: vertical center of the first line's slot. -/
def startY (s : State) : ℚ :=
  (EXPORT_SIZE : ℚ) / 2 - totalHeight s / 2 + lineHeightPx s / 2 + (s.offsetY : ℚ)

/-- Vertical center of line slot `i` (the `y` of the draw loop). -/
def lineCenterY (s : State) (i : ℕ) : ℚ := startY s + (i : ℚ) * lineHeightPx s

/-- Horizontal anchor: `safeLeft + offsetX` for left, `safeRight + offsetX`
for right, `EXPORT_SIZE/2 + offsetX` otherwise. -/
def anchorX (s : State) : ℚ :=
  if s.align = S ("left") then (s.padding : ℚ) + (s.offsetX : ℚ)
  else if s.align = S ("right") then ((EXPORT_SIZE : ℚ) - (s.padding : ℚ)) + (s.offsetX : ℚ)
  else (EXPORT_SIZE : ℚ) / 2 + (s.offsetX : ℚ)

/-- The sequence of `fillText` calls of the draw loop: line `i` is drawn
at `(anchorX, startY + i*lineHeightPx)` unless it is the empty string
(`if (!t) continue` — empty lines keep their slot but draw nothing). -/
def drawCommands (s : State) : List (List Char × ℚ) :=
  ((stateLines s).enum.filterMap fun (i, t) =>
    if t = [] then none else some (t, lineCenterY s i))

/-- A pixel of the 128×128 export buffer, as far as the background claims
need it: transparent (from `clearRect`), a background fill
(`rgba(r,g,b,bgAlpha)` from `fillRect`), or text ink on top. -/
inductive Pixel where
  | transparent : Pixel
  | bg (c : Rgb) (alpha : ℚ) : Pixel
  | glyph (color : List Char) : Pixel
deriving DecidableEq, Repr

/-- The clip region `rect(safeLeft, safeLeft, safeWidth, safeWidth)`
installed before the draw loop. -/
def insideClip (s : State) (x y : ℕ) : Bool :=
  decide (s.padding ≤ (x : ℤ)) && decide ((x : ℤ) < (EXPORT_SIZE : ℤ) - s.padding) &&
  decide (s.padding ≤ (y : ℤ)) && decide ((y : ℤ) < (EXPORT_SIZE : ℤ) - s.padding)

/-- Per-pixel result of `renderExportCanvas`.  The buffer is cleared, the
background is filled only when `!state.bgTransparent` and `hexToRgb`
succeeds, and glyph ink lands only inside the clip.  Which pixels a
`fillText` call covers is the font engine's business; it is abstracted as
the oracle `covered`. -/
def renderPixel (s : State) (covered : ℕ → ℕ → Bool) (x y : ℕ) : Pixel :=
  if covered x y && insideClip s x y then .glyph s.textColor
  else if s.bgTransparent then .transparent
  else
    match hexToRgb s.bgColor with
    | some rgb => .bg rgb s.bgAlpha
    | none => .transparent

/-- RenderScheduler / store events: a `schedule()` call or a store
mutation (`readControlsIntoState` writing the state), as they interleave
within one frame interval. -/
inductive Ev (σ : Type) where
  | sched : Ev σ
  | setStore (v : σ) : Ev σ
deriving DecidableEq, Repr

/-- Scheduler state: `rafId ≠ 0` is `pending`; `store` is the live
parameter state; `renders` records each `renderAll()` invocation with the
store snapshot it used and whether a frame was still pending when it ran. -/
structure SchedState (σ : Type) where
  pending : Bool
  store : σ
  renders : List (σ × Bool)
deriving DecidableEq, Repr

/-- `scheduleRender`: no-op when a frame callback is already registered,
else register one (transition to Pending). -/
def scheduleRender {σ : Type} (s : SchedState σ) : SchedState σ :=
  if s.pending then s else { s with pending := true }

def applyEv {σ : Type} (s : SchedState σ) : Ev σ → SchedState σ
  | .sched => scheduleRender s
  | .setStore v => { s with store := v }

def runEvents {σ : Type} (s : SchedState σ) (evs : List (Ev σ)) : SchedState σ :=
  evs.foldl applyEv s

/-- The frame callback firing: if a callback is registered it first clears
`rafId` (back to Idle) and then runs `renderAll()` on the current store;
with no registered callback nothing happens. -/
def frameFire {σ : Type} (s : SchedState σ) : SchedState σ :=
  if s.pending then
    let s1 := { s with pending := false }
    { s1 with renders := s1.renders ++ [(s1.store, s1.pending)] }
  else s

/-- The store value after a list of events, as the claim describes it:
the value of the last `setStore`, or the initial value. -/
def lastStore {σ : Type} (init : σ) (evs : List (Ev σ)) : σ :=
  evs.foldl (fun acc ev => match ev with
    | .sched => acc
    | .setStore v => v) init

def hasSched {σ : Type} (evs : List (Ev σ)) : Bool :=
  evs.any fun ev => match ev with
    | .sched => true
    | .setStore _ => false

/-- FontReadinessGate state: the monotone `fontLoadToken` counter and the
number of `scheduleRender()` calls the gate has issued. -/
structure FontGate where
  fontLoadToken : ℕ
  schedCount : ℕ
deriving DecidableEq, Repr

/-- `ensureFontLoaded` up to its `await` (the path where the font API
exists): increment the token and capture it; returns the new gate state
and the captured token. -/
def ensureIssue (g : FontGate) : FontGate × ℕ :=
  ({ g with fontLoadToken := g.fontLoadToken + 1 }, g.fontLoadToken + 1)

/-- The continuation after `document.fonts.load` settles.  `success` is
unused because the `catch {}` swallows failures before the token check:
if the captured token is still current, `scheduleRender()` is called. -/
def settleLoad (g : FontGate) (captured : ℕ) (_success : Bool) : FontGate :=
  if captured = g.fontLoadToken then { g with schedCount := g.schedCount + 1 } else g

/-- A persisted preference blob whose `textColor` is the corrupt string
`not-a-color` (everything else absent). -/
def persistedBadColor : Persisted := { textColor := some (S ("not-a-color")) }

/-- A baseline set of control values (the defaults, as the controls show
them). -/
def defaultControls : Controls where
  textInput := S ("Hi")
  fontSelect := S ("Noto Sans TC")
  weightSelect := S ("400")
  sizeRange := S ("56")
  lineRange := S ("1.15")
  textColor := S ("#111827")
  bgColor := S ("#ffffff")
  bgTransparent := true
  bgAlphaRange := S ("100")
  offXRange := S ("0")
  offYRange := S ("0")
  alignSelect := S ("center")
  padRange := S ("0")

/-- Controls supplying `ABCDEF` (no leading `#`) as the text color. -/
def controlsNoHash : Controls := { defaultControls with textColor := S ("ABCDEF") }

/-- Controls supplying an uppercase `#ABCDEF` text color. -/
def controlsUpper : Controls := { defaultControls with textColor := S ("#ABCDEF") }

/-- Controls supplying a lowercase `#abcdef` text color. -/
def controlsLower : Controls := { defaultControls with textColor := S ("#abcdef") }

/-- Controls supplying `not-a-color` as the text color. -/
def controlsNotAColor : Controls := { defaultControls with textColor := S ("not-a-color") }

/-- Controls whose numeric fields are all non-parseable. -/
def controlsBadNums : Controls := { defaultControls with
  sizeRange := S ("huge")
  lineRange := S ("tall")
  bgAlphaRange := S ("opaque")
  offXRange := S ("far")
  offYRange := S ("far")
  padRange := S ("wide") }

/-- A prior state whose stored text color is `#ff0000` (not the default). -/
def priorRed : State := { DEFAULT_STATE with textColor := S ("#ff0000") }

/-- The multi-line example state of the spec: text `A\nB`, 40px font,
line-height 1.0, no vertical offset. -/
def stateAB : State := { DEFAULT_STATE with
  text := S ("A\nB")
  fontSize := 40
  lineHeight := 1
  offsetY := 0 }

/-- The transparent-background example of the spec: red background color
and full alpha, but `bgTransparent` set. -/
def stateTransparentRed : State := { DEFAULT_STATE with
  bgTransparent := true
  bgColor := S ("#ff0000")
  bgAlpha := 1 }

/-- A state with an opaque background whose color string is corrupt. -/
def stateBadBg : State := { DEFAULT_STATE with
  bgTransparent := false
  bgColor := S ("oops") }

/-- A stored color is canonical when re-normalizing it is the identity:
it is exactly `#` followed by six hex digits. -/
def isCanonicalColor (v : List Char) : Prop := normalizeHex v = some v

instance (v : List Char) : Decidable (isCanonicalColor v) := by
  unfold isCanonicalColor
  infer_instance

end App

namespace App

theorem clampInt_mem (v : List Char) (lo hi : ℤ) (h : lo ≤ hi) :
    lo ≤ clampInt v lo hi ∧ clampInt v lo hi ≤ hi := by
  unfold clampInt
  cases parseIntJS v with
  | none => exact ⟨le_refl lo, h⟩
  | some n => exact ⟨le_max_left _ _, max_le h (min_le_left _ _)⟩

theorem clampFloat_mem (v : List Char) (lo hi : ℚ) (h : lo ≤ hi) :
    lo ≤ clampFloat v lo hi ∧ clampFloat v lo hi ≤ hi := by
  unfold clampFloat
  cases parseFloatJS v with
  | nan => exact ⟨le_refl lo, h⟩
  | posInf => exact ⟨le_max_left _ _, max_le h (le_refl hi)⟩
  | negInf => exact ⟨le_refl lo, h⟩
  | val q => exact ⟨le_max_left _ _, max_le h (min_le_left _ _)⟩

theorem hexDigit_not_ws (c : Char) (h : isHexDigit c = true) :
    isJsWhitespace c = false := by
  rw [Bool.eq_false_iff]
  intro hw
  unfold isJsWhitespace at hw
  simp only [Bool.or_eq_true, decide_eq_true_eq, or_assoc] at hw
  rcases hw with h1 | h1 | h1 | h1 | h1 | h1 | h1 | h1 <;>
    subst h1 <;> exact absurd h (by decide)

theorem jsTrim_hash_hex (body : List Char) (hb : body.all isHexDigit = true) :
    jsTrim ('#' :: body) = '#' :: body := by
  cases hb2 : body.reverse with
  | nil =>
    have : body = [] := by simpa using congrArg List.reverse hb2
    subst this
    decide
  | cons c rest =>
    have hc : c ∈ body := by
      have : c ∈ body.reverse := by rw [hb2]; exact List.mem_cons_self _ _
      exact List.mem_reverse.mp this
    have hhex : isHexDigit c = true := List.all_eq_true.mp hb _ hc
    have hrev : ('#' :: body).reverse = c :: (rest ++ ['#']) := by
      simp [hb2]
    unfold jsTrim
    rw [List.dropWhile_cons, if_neg (by decide), hrev, List.dropWhile_cons,
      if_neg (by simp [hexDigit_not_ws c hhex]), ← hrev, List.reverse_reverse]

theorem normalizeHex_eq_some (v h : List Char) (hn : normalizeHex v = some h) :
    ∃ body, h = '#' :: body ∧ body.length = 6 ∧ body.all isHexDigit = true := by
  unfold normalizeHex at hn
  split at hn
  · next t body heq =>
    split at hn
    · next hcond =>
      exact ⟨body, (Option.some.inj hn).symm, hcond⟩
    · exact absurd hn (by simp)
  · exact absurd hn (by simp)

theorem stored_color_canonical (v d : List Char) (hd : isCanonicalColor d) :
    isCanonicalColor ((normalizeHex v).getD d) := by
  cases hn : normalizeHex v with
  | none => simpa using hd
  | some h =>
    obtain ⟨body, rfl, hlen, hhex⟩ := normalizeHex_eq_some v h hn
    show isCanonicalColor ('#' :: body)
    unfold isCanonicalColor normalizeHex
    rw [jsTrim_hash_hex body hhex]
    simp [hlen, hhex]

theorem applyEv_renders {σ : Type} (s : SchedState σ) (e : Ev σ) :
    (applyEv s e).renders = s.renders := by
  cases e with
  | sched =>
    simp only [applyEv, scheduleRender]
    split <;> rfl
  | setStore v => rfl

theorem applyEv_store {σ : Type} (s : SchedState σ) (e : Ev σ) :
    (applyEv s e).store = match e with
      | .sched => s.store
      | .setStore v => v := by
  cases e with
  | sched =>
    simp only [applyEv, scheduleRender]
    split <;> rfl
  | setStore v => rfl

theorem runEvents_renders {σ : Type} (evs : List (Ev σ)) (s : SchedState σ) :
    (runEvents s evs).renders = s.renders := by
  induction evs generalizing s with
  | nil => rfl
  | cons e rest ih =>
    show (runEvents (applyEv s e) rest).renders = s.renders
    rw [ih, applyEv_renders]

theorem runEvents_store {σ : Type} (evs : List (Ev σ)) (s : SchedState σ) :
    (runEvents s evs).store = lastStore s.store evs := by
  induction evs generalizing s with
  | nil => rfl
  | cons e rest ih =>
    show (runEvents (applyEv s e) rest).store = lastStore s.store (e :: rest)
    rw [ih, applyEv_store]
    cases e <;> rfl

theorem runEvents_pending {σ : Type} (evs : List (Ev σ)) (s : SchedState σ) :
    (runEvents s evs).pending = (s.pending || hasSched evs) := by
  induction evs generalizing s with
  | nil => simp [runEvents, hasSched]
  | cons e rest ih =>
    show (runEvents (applyEv s e) rest).pending = _
    rw [ih]
    cases e with
    | sched =>
      have hp : (applyEv s .sched).pending = true := by
        simp only [applyEv, scheduleRender]
        split
        · next h => exact h
        · rfl
      rw [hp]
      simp [hasSched]
    | setStore v =>
      have hp : (applyEv s (.setStore v)).pending = s.pending := rfl
      rw [hp]
      simp [hasSched, List.any_cons]

/-- C1 counterexample: a persisted preference blob whose `textColor` is the
corrupt string `not-a-color` survives `loadState` verbatim — the loaded
state's `textColor` is out of its declared domain and is not the default,
contradicting the claim that every field is clamped or defaulted at load. -/
theorem C1_counterexample :
    (loadState (some persistedBadColor)).textColor = S ("not-a-color") ∧
    normalizeHex ((loadState (some persistedBadColor)).textColor) = none ∧
    (loadState (some persistedBadColor)).textColor ≠ DEFAULT_STATE.textColor := by
  refine ⟨rfl, by decide, by decide⟩

/-- C1 amended: at startup, `loadState` clamps the six numeric fields into
their domains (and an unreadable store yields the full defaults), but the
string fields — `textColor`, `bgColor`, `align`, `text` — are merged
verbatim from the persisted JSON with no sanitization. -/
theorem C1_amended (p : Persisted) :
    (8 ≤ (loadState (some p)).fontSize ∧ (loadState (some p)).fontSize ≤ 128) ∧
    ((0.8 : ℚ) ≤ (loadState (some p)).lineHeight ∧ (loadState (some p)).lineHeight ≤ 1.8) ∧
    ((0 : ℚ) ≤ (loadState (some p)).bgAlpha ∧ (loadState (some p)).bgAlpha ≤ 1) ∧
    (-64 ≤ (loadState (some p)).offsetX ∧ (loadState (some p)).offsetX ≤ 64) ∧
    (-64 ≤ (loadState (some p)).offsetY ∧ (loadState (some p)).offsetY ≤ 64) ∧
    (0 ≤ (loadState (some p)).padding ∧ (loadState (some p)).padding ≤ 24) ∧
    (loadState (some p)).textColor = p.textColor.getD DEFAULT_STATE.textColor ∧
    (loadState (some p)).bgColor = p.bgColor.getD DEFAULT_STATE.bgColor ∧
    (loadState (some p)).align = p.align.getD DEFAULT_STATE.align ∧
    (loadState (some p)).text = p.text.getD DEFAULT_STATE.text ∧
    loadState none = DEFAULT_STATE := by
  refine ⟨?_, ?_, ?_, ?_, ?_, ?_, rfl, rfl, rfl, rfl, rfl⟩
  · exact clampInt_mem _ 8 128 (by norm_num)
  · exact clampFloat_mem _ 0.8 1.8 (by norm_num)
  · exact clampFloat_mem _ 0 1 (by norm_num)
  · exact clampInt_mem _ (-64) 64 (by norm_num)
  · exact clampInt_mem _ (-64) 64 (by norm_num)
  · exact clampInt_mem _ 0 24 (by norm_num)

/-- C2 counterexample: supplying `ABCDEF` (no leading `#`) as the text
color stores the default `#111827`, not `#abcdef` — `normalizeHex`
requires the `#`. -/
theorem C2_counterexample :
    (readControlsIntoState DEFAULT_STATE controlsNoHash).textColor = S ("#111827") ∧
    (readControlsIntoState DEFAULT_STATE controlsNoHash).textColor ≠ S ("#abcdef") := by
  refine ⟨by decide, by decide⟩

/-- C2 amended: after a set, the stored `textColor`/`bgColor` is always a
canonical `#` + six hex digits string, but the hex digits keep the case
they were supplied in: `#ABCDEF` is stored as `#ABCDEF` (not lowercased),
`#abcdef` as `#abcdef`, and a value without the leading `#` such as
`ABCDEF` is replaced by the default `#111827`. -/
theorem C2_amended (prior : State) (c : Controls) :
    isCanonicalColor ((readControlsIntoState prior c).textColor) ∧
    isCanonicalColor ((readControlsIntoState prior c).bgColor) ∧
    (readControlsIntoState prior controlsUpper).textColor = S ("#ABCDEF") ∧
    (readControlsIntoState prior controlsLower).textColor = S ("#abcdef") ∧
    (readControlsIntoState prior controlsNoHash).textColor = S ("#111827") := by
  refine ⟨?_, ?_, rfl, rfl, rfl⟩
  · exact stored_color_canonical c.textColor _ (by decide)
  · exact stored_color_canonical c.bgColor _ (by decide)

/-- C3 counterexample: for the text `©` (U+00A9, not alphanumeric), the
code's file name is `©.png` — the character is kept, because the regex
fallback keeps every character from U+00A0 up — while the claim's
transform strips it and yields `slack-emoji.png`. -/
theorem C3_counterexample :
    safeFileNameFromText (S ("©")) = S ("©.png") ∧
    claimFileNameFromText (S ("©")) = S ("slack-emoji.png") ∧
    safeFileNameFromText (S ("©")) ≠ claimFileNameFromText (S ("©")) := by
  refine ⟨by decide, by decide, by decide⟩

/-- C3 amended: the export file name is derived from the trimmed first
line of the text by collapsing whitespace runs to `-`, keeping only ASCII
alphanumerics, `-`, `_` and characters at U+00A0 and above (stripping the
rest), collapsing hyphen runs and trimming one leading/trailing hyphen,
truncating to 32 characters, with defaults `slack-emoji`/`slack-emoji.png`
when empty; in particular `Hi` gives `Hi.png`. -/
theorem C3_amended :
    (∀ t, safeFileNameFromText t = amendedFileNameFromText t) ∧
    safeFileNameFromText (S ("Hi")) = S ("Hi.png") :=
  ⟨fun _ => rfl, by decide⟩

/-- C4: every line slot's vertical center is
`128/2 - totalHeight/2 + lineHeightPx/2 + offsetY + i*lineHeightPx`, and
for text `A\nB` with fontSize 40, lineHeight 1.0, offsetY 0, the draw loop
emits exactly the two lines with centers 44 and 84. -/
theorem C4_layout :
    (∀ (s : State) (i : ℕ), lineCenterY s i =
      (128 : ℚ) / 2 - (lineHeightPx s * (stateLines s).length) / 2 + lineHeightPx s / 2
        + (s.offsetY : ℚ) + (i : ℚ) * lineHeightPx s) ∧
    drawCommands stateAB = [(S ("A"), 44), (S ("B"), 84)] := by
  constructor
  · intro s i
    unfold lineCenterY startY totalHeight EXPORT_SIZE
    norm_num
  · have hl : stateLines stateAB = [S ("A"), S ("B")] := by decide
    rw [drawCommands, hl]
    have h0 : lineCenterY stateAB 0 = 44 := by
      rw [lineCenterY, startY, totalHeight, hl]
      norm_num [lineHeightPx, stateAB, DEFAULT_STATE, EXPORT_SIZE]
    have h1 : lineCenterY stateAB 1 = 84 := by
      rw [lineCenterY, startY, totalHeight, hl]
      norm_num [lineHeightPx, stateAB, DEFAULT_STATE, EXPORT_SIZE]
    simp [List.enum, List.filterMap, S, h0, h1]

/-- C5: starting Idle, after any interleaving of store writes and at least
one `schedule()` call within one frame interval, no render has happened
yet; when the frame callback fires exactly one render is recorded, it uses
the store as of the last write (the snapshot current at fire time), and
the scheduler is back to Idle before (and after) the render runs. -/
theorem C5_scheduler_coalesces (σ : Type) (init : σ) (evs : List (Ev σ))
    (h : hasSched evs = true) :
    (runEvents ⟨false, init, []⟩ evs).renders = [] ∧
    (frameFire (runEvents ⟨false, init, []⟩ evs)).renders = [(lastStore init evs, false)] ∧
    (frameFire (runEvents ⟨false, init, []⟩ evs)).pending = false := by
  have hr : (runEvents (⟨false, init, []⟩ : SchedState σ) evs).renders = [] :=
    runEvents_renders evs _
  have hst : (runEvents (⟨false, init, []⟩ : SchedState σ) evs).store = lastStore init evs :=
    runEvents_store evs _
  have hp : (runEvents (⟨false, init, []⟩ : SchedState σ) evs).pending = true := by
    rw [runEvents_pending, h]
    rfl
  refine ⟨hr, ?_, ?_⟩ <;> unfold frameFire <;> rw [hp] <;> simp [hr, hst]

theorem C5_witness :
    hasSched [Ev.sched, Ev.setStore (7 : ℕ), Ev.sched, Ev.sched] = true ∧
    (frameFire (runEvents ⟨false, (0 : ℕ), []⟩
      [Ev.sched, Ev.setStore 7, Ev.sched, Ev.sched])).renders = [(7, false)] := by
  refine ⟨by decide, ?_⟩
  have h := (C5_scheduler_coalesces ℕ 0 [Ev.sched, Ev.setStore 7, Ev.sched, Ev.sched]
    (by decide)).2.1
  rw [h]
  decide

/-- C6: after `ensure("A")` then `ensure("B")` (B issued before A's load
settles), A's settling leaves the gate unchanged — its captured token no
longer equals the current one, so no render is scheduled — while B's
settling schedules exactly one render; both hold whether each load
succeeds or fails. -/
theorem C6_font_supersession (t c : ℕ) (sA sB : Bool) :
    settleLoad (ensureIssue (ensureIssue ⟨t, c⟩).1).1 (ensureIssue ⟨t, c⟩).2 sA
      = (ensureIssue (ensureIssue ⟨t, c⟩).1).1 ∧
    (settleLoad (ensureIssue (ensureIssue ⟨t, c⟩).1).1
      (ensureIssue (ensureIssue ⟨t, c⟩).1).2 sB).schedCount = c + 1 ∧
    (settleLoad (settleLoad (ensureIssue (ensureIssue ⟨t, c⟩).1).1
      (ensureIssue ⟨t, c⟩).2 sA)
      (ensureIssue (ensureIssue ⟨t, c⟩).1).2 sB).schedCount = c + 1 := by
  refine ⟨?_, ?_, ?_⟩ <;>
    simp only [ensureIssue, settleLoad] <;>
    simp

/-- C7: with `bgTransparent = true` the background fill is skipped
regardless of `bgColor`/`bgAlpha`: every pixel outside glyph coverage is
transparent. -/
theorem C7_transparent_skips_bg (s : State) (covered : ℕ → ℕ → Bool) (x y : ℕ)
    (hbg : s.bgTransparent = true) (hcov : covered x y = false) :
    renderPixel s covered x y = .transparent := by
  unfold renderPixel
  rw [hcov, hbg]
  simp

theorem C7_witness :
    stateTransparentRed.bgTransparent = true ∧
    renderPixel stateTransparentRed (fun _ _ => false) 0 0 = .transparent :=
  ⟨rfl, C7_transparent_skips_bg stateTransparentRed (fun _ _ => false) 0 0 rfl rfl⟩

/-- C8: after a set, `fontSize ∈ [8,128]`, `lineHeight ∈ [0.8,1.8]`,
`bgAlpha ∈ [0,1]`, `offsetX, offsetY ∈ [-64,64]`, `padding ∈ [0,24]`, and
each non-parseable numeric input yields the corresponding range minimum. -/
theorem C8_ranges (prior : State) (c : Controls) :
    (8 ≤ (readControlsIntoState prior c).fontSize ∧
      (readControlsIntoState prior c).fontSize ≤ 128) ∧
    ((0.8 : ℚ) ≤ (readControlsIntoState prior c).lineHeight ∧
      (readControlsIntoState prior c).lineHeight ≤ 1.8) ∧
    ((0 : ℚ) ≤ (readControlsIntoState prior c).bgAlpha ∧
      (readControlsIntoState prior c).bgAlpha ≤ 1) ∧
    (-64 ≤ (readControlsIntoState prior c).offsetX ∧
      (readControlsIntoState prior c).offsetX ≤ 64) ∧
    (-64 ≤ (readControlsIntoState prior c).offsetY ∧
      (readControlsIntoState prior c).offsetY ≤ 64) ∧
    (0 ≤ (readControlsIntoState prior c).padding ∧
      (readControlsIntoState prior c).padding ≤ 24) ∧
    (parseIntJS c.sizeRange = none → (readControlsIntoState prior c).fontSize = 8) ∧
    (parseFloatJS c.lineRange = .nan → (readControlsIntoState prior c).lineHeight = 0.8) ∧
    (parseIntJS c.bgAlphaRange = none → (readControlsIntoState prior c).bgAlpha = 0) ∧
    (parseIntJS c.offXRange = none → (readControlsIntoState prior c).offsetX = -64) ∧
    (parseIntJS c.offYRange = none → (readControlsIntoState prior c).offsetY = -64) ∧
    (parseIntJS c.padRange = none → (readControlsIntoState prior c).padding = 0) := by
  have hk := clampInt_mem c.bgAlphaRange 0 100 (by norm_num)
  refine ⟨clampInt_mem _ 8 128 (by norm_num),
    clampFloat_mem _ 0.8 1.8 (by norm_num),
    ⟨?_, ?_⟩,
    clampInt_mem _ (-64) 64 (by norm_num),
    clampInt_mem _ (-64) 64 (by norm_num),
    clampInt_mem _ 0 24 (by norm_num),
    ?_, ?_, ?_, ?_, ?_, ?_⟩
  · exact div_nonneg (by exact_mod_cast hk.1) (by norm_num)
  · exact (div_le_one (by norm_num)).mpr (by exact_mod_cast hk.2)
  · intro h
    show clampInt c.sizeRange 8 128 = 8
    unfold clampInt
    rw [h]
  · intro h
    show clampFloat c.lineRange 0.8 1.8 = 0.8
    unfold clampFloat
    rw [h]
  · intro h
    show (clampInt c.bgAlphaRange 0 100 : ℚ) / 100 = 0
    unfold clampInt
    rw [h]
    norm_num
  · intro h
    show clampInt c.offXRange (-64) 64 = -64
    unfold clampInt
    rw [h]
  · intro h
    show clampInt c.offYRange (-64) 64 = -64
    unfold clampInt
    rw [h]
  · intro h
    show clampInt c.padRange 0 24 = 0
    unfold clampInt
    rw [h]

theorem C8_witness :
    (readControlsIntoState DEFAULT_STATE controlsBadNums).fontSize = 8 ∧
    (readControlsIntoState DEFAULT_STATE controlsBadNums).lineHeight = 0.8 ∧
    (readControlsIntoState DEFAULT_STATE controlsBadNums).bgAlpha = 0 ∧
    (readControlsIntoState DEFAULT_STATE controlsBadNums).offsetX = -64 ∧
    (readControlsIntoState DEFAULT_STATE controlsBadNums).offsetY = -64 ∧
    (readControlsIntoState DEFAULT_STATE controlsBadNums).padding = 0 := by
  have h := C8_ranges DEFAULT_STATE controlsBadNums
  exact ⟨h.2.2.2.2.2.2.1 (by decide),
    h.2.2.2.2.2.2.2.1 (by decide),
    h.2.2.2.2.2.2.2.2.1 (by decide),
    h.2.2.2.2.2.2.2.2.2.1 (by decide),
    h.2.2.2.2.2.2.2.2.2.2.1 (by decide),
    h.2.2.2.2.2.2.2.2.2.2.2 (by decide)⟩

/-- C9 counterexample: with a prior stored color `#ff0000`, a set whose
supplied text color fails the `#rrggbb` match stores the default
`#111827`, not the prior value — the stored color does change. -/
theorem C9_counterexample :
    normalizeHex (controlsNotAColor.textColor) = none ∧
    (readControlsIntoState priorRed controlsNotAColor).textColor ≠ priorRed.textColor := by
  refine ⟨by decide, by decide⟩

/-- C9 amended: whenever the supplied text color fails the
case-insensitive exact `#rrggbb` match, the stored `textColor` is the
component's default `#111827`, regardless of the prior value (so it is
"unchanged" only when the prior value was already the default). -/
theorem C9_amended (prior : State) (c : Controls)
    (h : normalizeHex c.textColor = none) :
    (readControlsIntoState prior c).textColor = DEFAULT_STATE.textColor := by
  show (normalizeHex c.textColor).getD DEFAULT_STATE.textColor = DEFAULT_STATE.textColor
  rw [h]
  rfl

theorem C9_witness :
    normalizeHex (controlsNotAColor.textColor) = none ∧
    (readControlsIntoState DEFAULT_STATE controlsNotAColor).textColor
      = DEFAULT_STATE.textColor :=
  ⟨by decide, C9_amended DEFAULT_STATE controlsNotAColor (by decide)⟩

/-- C10: with `bgTransparent = false` and a `bgColor` that `hexToRgb`
rejects, rendering still completes (the model is a total function) and the
background fill is silently skipped: every pixel outside glyph coverage is
transparent. -/
theorem C10_bad_bgcolor_safe (s : State) (covered : ℕ → ℕ → Bool) (x y : ℕ)
    (hbg : s.bgTransparent = false) (hcol : hexToRgb s.bgColor = none)
    (hcov : covered x y = false) :
    renderPixel s covered x y = .transparent := by
  unfold renderPixel
  rw [hcov, hbg, hcol]
  simp

theorem C10_witness :
    stateBadBg.bgTransparent = false ∧
    hexToRgb stateBadBg.bgColor = none ∧
    renderPixel stateBadBg (fun _ _ => false) 5 5 = .transparent :=
  ⟨rfl, by decide, C10_bad_bgcolor_safe stateBadBg (fun _ _ => false) 5 5 rfl (by decide) rfl⟩

end App
